import Mathlib

/-!
Shallow embedding of the xastro reward-system Solana program
(`src/src/lib.rs`) and verification of its specification.

The program processes one instruction per invocation over a list of account
handles.  We model public keys as natural numbers, byte buffers as `List Nat`
with entries below 256, and the host environment (program-derived addresses,
rent sysvar, and the outcomes of cross-program invocations) as an explicit
`Env` record.  Machine integers are `Nat` with explicit `% 2^32` where the
source's `u32` arithmetic can wrap; `u32::checked_add` is modelled by a bound
check against `2^32`.
-/

set_option autoImplicit false

namespace RewardSystem

/-- An account address (Solana `Pubkey`), modelled as a natural number
below `2^256` (a 32-byte identifier). -/
abbrev Pubkey := Nat

/-- The persisted reward record, `RewardAccount` in `src/src/lib.rs`:
`total_points: u32`, `rewards_claimed: u32`, `mint: Pubkey`. -/
structure RewardAccount where
  total_points : Nat
  rewards_claimed : Nat
  mint : Pubkey
deriving DecidableEq, Repr

/-- The instruction enum `RewardInstruction` of `src/src/lib.rs`.
Borsh assigns discriminants in declaration order: `Init = 0`,
`Earn = 1`, `Claim = 2`, `MintToken = 3`. -/
inductive RewardInstruction where
  | Init
  | Earn (points : Nat)
  | Claim (required_points : Nat) (amount : Nat)
  | MintToken (amount : Nat)
deriving DecidableEq, Repr

/-- The subset of `solana_program::program_error::ProgramError` values the
program can produce.  `ExternalCallFailed` stands for whatever error a failed
cross-program invocation propagates. -/
inductive ProgramError where
  | MissingRequiredSignature
  | InvalidAccountData
  | InvalidInstructionData
  | IncorrectProgramId
  | InsufficientFunds
  | ArithmeticOverflow
  | InvalidSeeds
  | BorshIoError
  | ExternalCallFailed
deriving DecidableEq, Repr

/-- One account handle (Solana `AccountInfo`): address, signer flag, native
balance in lamports, owning program, and the raw data buffer. -/
structure AccountInfo where
  key : Pubkey
  is_signer : Bool
  lamports : Nat
  owner : Pubkey
  data : List Nat
deriving DecidableEq, Repr

/-- The host environment the program runs against: the program-derived-address
function (`Pubkey::find_program_address`), the rent sysvar's minimum balance,
the SPL token program id checked by `spl_token::instruction::{transfer,
mint_to}` when they are constructed, and the success or failure of each kind
of cross-program invocation the program issues. -/
structure Env where
  fpa : List (List Nat) → Pubkey → Pubkey × Nat
  minimumBalance : Nat → Nat
  splTokenId : Pubkey
  sysTransferOk : Bool
  createOk : Bool
  cpiTransferOk : Bool
  mintCpiOk : Bool

/-- The seed bytes `b"reward"` used to derive the reward account address. -/
def rewardSeed : List Nat := [114, 101, 119, 97, 114, 100]

/-- The seed bytes `b"WAGUS"` used to derive the mint authority address. -/
def wagusSeed : List Nat := [87, 65, 71, 85, 83]

/-- Observable side effects of one invocation, in issue order. -/
inductive Effect where
  | writeRecord (r : RewardAccount)
  | sysTransfer (source dest amount : Nat)
  | createAccount (payer dest lamports space owner : Nat)
  | splTransfer (source dest authority amount : Nat)
  | splMintTo (mint dest authority amount : Nat)
  | reallocTo (space : Nat)
deriving DecidableEq, Repr

/-- Result of one invocation: the returned `ProgramResult`, the final state of
the reward account (the only account whose data the program writes), and the
ordered trace of effects issued before returning. -/
structure ExecResult where
  result : Except ProgramError Unit
  reward : AccountInfo
  trace : List Effect
deriving Repr

/-! ## Byte codec (borsh, little-endian, fixed layout) -/

/-- Little-endian encoding of `n` into exactly `k` bytes (truncating). -/
def natToLe : Nat → Nat → List Nat
  | 0, _ => []
  | k + 1, n => n % 256 :: natToLe k (n / 256)

/-- Little-endian decoding of a byte list. -/
def leToNat : List Nat → Nat
  | [] => 0
  | b :: bs => b + 256 * leToNat bs

/-- Borsh serialization of a `RewardAccount`: `total_points` (4 bytes LE),
`rewards_claimed` (4 bytes LE), `mint` (32 bytes). -/
def encodeRA (r : RewardAccount) : List Nat :=
  natToLe 4 r.total_points ++ natToLe 4 r.rewards_claimed ++ natToLe 32 r.mint

/-- Borsh `RewardAccount::try_from_slice`: succeeds exactly on a well-formed
40-byte buffer (borsh rejects trailing bytes, so the length must be exact). -/
def decodeRA (bs : List Nat) : Option RewardAccount :=
  if bs.length = 40 ∧ bs.all (· < 256) then
    some ⟨leToNat (bs.take 4), leToNat ((bs.drop 4).take 4), leToNat (bs.drop 8)⟩
  else none

/-- Borsh `serialize(&mut *data)`: writes the 40 record bytes at the start of
the buffer, leaving any tail untouched; fails if the buffer is too small. -/
def serializeInto (buf : List Nat) (r : RewardAccount) :
    Except ProgramError (List Nat) :=
  if 40 ≤ buf.length then .ok (encodeRA r ++ buf.drop 40)
  else .error .BorshIoError

/-- Borsh `RewardInstruction::try_from_slice`: one discriminant byte followed
by the variant's fixed-width fields, with no trailing bytes allowed. -/
def decodeInstr (bs : List Nat) : Option RewardInstruction :=
  match bs with
  | [0] => some .Init
  | 1 :: rest =>
      if rest.length = 4 then some (.Earn (leToNat rest)) else none
  | 2 :: rest =>
      if rest.length = 12 then
        some (.Claim (leToNat (rest.take 4)) (leToNat (rest.drop 4)))
      else none
  | 3 :: rest =>
      if rest.length = 8 then some (.MintToken (leToNat rest)) else none
  | _ => none

/-- Instruction payload bytes for `Init`. -/
def initBytes : List Nat := [0]

/-- Instruction payload bytes for `Earn { points }`. -/
def earnBytes (points : Nat) : List Nat := 1 :: natToLe 4 points

/-- Instruction payload bytes for `Claim { required_points, amount }`. -/
def claimBytes (requiredPoints amount : Nat) : List Nat :=
  2 :: (natToLe 4 requiredPoints ++ natToLe 8 amount)

/-- Instruction payload bytes for `MintToken { amount }`. -/
def mintTokenBytes (amount : Nat) : List Nat := 3 :: natToLe 8 amount

/-! ## The instruction handlers -/

/-- The freshly zeroed record Init writes. -/
def zeroRecord (mintKey : Pubkey) : RewardAccount :=
  ⟨0, 0, mintKey⟩

/-- The `Init` branch of `process_instruction`.  An existing (funded) slot
owned by the program is a no-op when its data decodes, repaired (topped up to
rent exemption, reallocated to 40 bytes, overwritten with a zeroed record)
when it does not; a funded slot with a foreign owner is rejected; an unfunded
slot is created via the system program and then initialized. -/
def processInit (env : Env) (programId : Pubkey)
    (signer rewardAcc mintAcc : AccountInfo) : ExecResult :=
  if 0 < rewardAcc.lamports then
    if rewardAcc.owner = programId then
      if (decodeRA rewardAcc.data).isSome then
        ⟨.ok (), rewardAcc, []⟩
      else
        let rentAmt := env.minimumBalance 40
        if rewardAcc.lamports < rentAmt ∧ env.sysTransferOk = false then
          ⟨.error .ExternalCallFailed, rewardAcc, []⟩
        else
          let acc1 :=
            if rewardAcc.lamports < rentAmt then
              { rewardAcc with lamports := rentAmt }
            else rewardAcc
          let tr1 : List Effect :=
            if rewardAcc.lamports < rentAmt then
              [.sysTransfer signer.key rewardAcc.key
                (rentAmt - rewardAcc.lamports)]
            else []
          let acc2 :=
            { acc1 with
              data := acc1.data.take 40 ++
                List.replicate (40 - acc1.data.length) 0 }
          match serializeInto acc2.data (zeroRecord mintAcc.key) with
          | .error e => ⟨.error e, acc2, tr1 ++ [.reallocTo 40]⟩
          | .ok newData =>
              ⟨.ok (), { acc2 with data := newData },
                tr1 ++ [.reallocTo 40, .writeRecord (zeroRecord mintAcc.key)]⟩
    else
      ⟨.error .InvalidAccountData, rewardAcc, []⟩
  else
    let rentAmt := env.minimumBalance 40
    if env.createOk = false then
      ⟨.error .ExternalCallFailed, rewardAcc, []⟩
    else
      let acc1 :=
        { rewardAcc with
          lamports := rentAmt, owner := programId,
          data := List.replicate 40 0 }
      match serializeInto acc1.data (zeroRecord mintAcc.key) with
      | .error e =>
          ⟨.error e, acc1,
            [.createAccount signer.key rewardAcc.key rentAmt 40 programId]⟩
      | .ok newData =>
          ⟨.ok (), { acc1 with data := newData },
            [.createAccount signer.key rewardAcc.key rentAmt 40 programId,
             .writeRecord (zeroRecord mintAcc.key)]⟩

/-- The `Earn` branch: owner check, deserialize, `checked_add` on
`total_points` (error `ArithmeticOverflow` with nothing written when the sum
would exceed `u32`), then serialize back. -/
def processEarn (programId : Pubkey) (rewardAcc : AccountInfo)
    (points : Nat) : ExecResult :=
  if rewardAcc.owner ≠ programId then
    ⟨.error .IncorrectProgramId, rewardAcc, []⟩
  else
    match decodeRA rewardAcc.data with
    | none => ⟨.error .InvalidAccountData, rewardAcc, []⟩
    | some r =>
        if r.total_points + points < 2 ^ 32 then
          let r2 : RewardAccount :=
            { r with total_points := r.total_points + points }
          match serializeInto rewardAcc.data r2 with
          | .ok newData =>
              ⟨.ok (), { rewardAcc with data := newData }, [.writeRecord r2]⟩
          | .error e => ⟨.error e, rewardAcc, []⟩
        else
          ⟨.error .ArithmeticOverflow, rewardAcc, []⟩

/-- The `Claim` branch: owner check, deserialize (`?` maps a borsh failure to
`BorshIoError`), insufficient-points guard, debit `total_points`, unchecked
`rewards_claimed += 1` (release-mode wrapping, modelled `% 2^32`), serialize
the updated record, then construct and invoke the SPL token transfer. -/
def processClaim (env : Env) (programId : Pubkey)
    (signer rewardAcc userTok vaultTok tokenProg : AccountInfo)
    (requiredPoints amount : Nat) : ExecResult :=
  if rewardAcc.owner ≠ programId then
    ⟨.error .IncorrectProgramId, rewardAcc, []⟩
  else
    match decodeRA rewardAcc.data with
    | none => ⟨.error .BorshIoError, rewardAcc, []⟩
    | some r =>
        if r.total_points < requiredPoints then
          ⟨.error .InsufficientFunds, rewardAcc, []⟩
        else
          let r2 : RewardAccount :=
            { r with
              total_points := r.total_points - requiredPoints,
              rewards_claimed := (r.rewards_claimed + 1) % 2 ^ 32 }
          match serializeInto rewardAcc.data r2 with
          | .error e => ⟨.error e, rewardAcc, []⟩
          | .ok newData =>
              let rewardAcc2 := { rewardAcc with data := newData }
              if tokenProg.key ≠ env.splTokenId then
                ⟨.error .IncorrectProgramId, rewardAcc2, [.writeRecord r2]⟩
              else if env.cpiTransferOk then
                ⟨.ok (), rewardAcc2,
                  [.writeRecord r2,
                   .splTransfer vaultTok.key userTok.key signer.key amount]⟩
              else
                ⟨.error .ExternalCallFailed, rewardAcc2,
                  [.writeRecord r2,
                   .splTransfer vaultTok.key userTok.key signer.key amount]⟩

/-- The `MintToken` branch: owner check, derive the mint authority from seed
`b"WAGUS"`, require the signer to be that authority, construct and invoke the
SPL `mint_to`.  The reward account's data is never written. -/
def processMintToken (env : Env) (programId : Pubkey)
    (signer rewardAcc vaultTok mintAcc tokenProg : AccountInfo)
    (amount : Nat) : ExecResult :=
  if rewardAcc.owner ≠ programId then
    ⟨.error .IncorrectProgramId, rewardAcc, []⟩
  else
    let authBump := env.fpa [wagusSeed] programId
    if signer.key ≠ authBump.1 then
      ⟨.error .InvalidSeeds, rewardAcc, []⟩
    else if tokenProg.key ≠ env.splTokenId then
      ⟨.error .IncorrectProgramId, rewardAcc, []⟩
    else if env.mintCpiOk then
      ⟨.ok (), rewardAcc,
        [.splMintTo mintAcc.key vaultTok.key authBump.1 amount]⟩
    else
      ⟨.error .ExternalCallFailed, rewardAcc,
        [.splMintTo mintAcc.key vaultTok.key authBump.1 amount]⟩

/-- `process_instruction` of `src/src/lib.rs`, given the seven accounts the
entry point extracts (signer, reward record, user token account, vault token
account, mint, token program, system program): signature check, reward-PDA
check, instruction decode, then dispatch. -/
def process (env : Env) (programId : Pubkey)
    (signer rewardAcc userTok vaultTok mintAcc tokenProg sysProg : AccountInfo)
    (idata : List Nat) : ExecResult :=
  if signer.is_signer = false then
    ⟨.error .MissingRequiredSignature, rewardAcc, []⟩
  else
    if rewardAcc.key ≠ (env.fpa [rewardSeed] programId).1 then
      ⟨.error .InvalidAccountData, rewardAcc, []⟩
    else
      match decodeInstr idata with
      | none => ⟨.error .InvalidInstructionData, rewardAcc, []⟩
      | some .Init => processInit env programId signer rewardAcc mintAcc
      | some (.Earn points) => processEarn programId rewardAcc points
      | some (.Claim rp amt) =>
          processClaim env programId signer rewardAcc userTok vaultTok
            tokenProg rp amt
      | some (.MintToken amt) =>
          processMintToken env programId signer rewardAcc vaultTok mintAcc
            tokenProg amt

/-! ## Codec lemmas -/

theorem natToLe_length (k n : Nat) : (natToLe k n).length = k := by
  induction k generalizing n with
  | zero => rfl
  | succ k ih => simp [natToLe, ih]

theorem natToLe_all_lt (k n : Nat) :
    (natToLe k n).all (· < 256) = true := by
  induction k generalizing n with
  | zero => rfl
  | succ k ih =>
    simp only [natToLe, List.all_cons, ih, Bool.and_true, decide_eq_true_eq]
    exact Nat.mod_lt _ (by omega)

theorem leToNat_natToLe (k n : Nat) :
    leToNat (natToLe k n) = n % 256 ^ k := by
  induction k generalizing n with
  | zero => simp [natToLe, leToNat, Nat.mod_one]
  | succ k ih =>
    simp only [natToLe, leToNat, ih]
    rw [pow_succ']
    have h1 : n % (256 * 256 ^ k) % 256 = n % 256 :=
      Nat.mod_mod_of_dvd n (dvd_mul_right 256 (256 ^ k))
    have h2 : n % (256 * 256 ^ k) / 256 = n / 256 % 256 ^ k :=
      Nat.mod_mul_right_div_self n 256 (256 ^ k)
    have h3 := Nat.div_add_mod (n % (256 * 256 ^ k)) 256
    omega

theorem encodeRA_length (r : RewardAccount) : (encodeRA r).length = 40 := by
  simp [encodeRA, natToLe_length]

theorem encodeRA_all_lt (r : RewardAccount) :
    (encodeRA r).all (· < 256) = true := by
  simp [encodeRA, List.all_append, natToLe_all_lt]

theorem decodeRA_length {bs : List Nat} {r : RewardAccount}
    (h : decodeRA bs = some r) : bs.length = 40 := by
  unfold decodeRA at h
  split at h
  · exact (by assumption : bs.length = 40 ∧ _).1
  · exact absurd h (by simp)

theorem serializeInto_of_length {bs : List Nat} (r : RewardAccount)
    (h : bs.length = 40) : serializeInto bs r = .ok (encodeRA r) := by
  unfold serializeInto
  rw [if_pos (by omega)]
  rw [List.drop_eq_nil_of_le (by omega), List.append_nil]

/-- Round trip of the record codec. -/
theorem decodeRA_encodeRA (r : RewardAccount)
    (h1 : r.total_points < 2 ^ 32) (h2 : r.rewards_claimed < 2 ^ 32)
    (h3 : r.mint < 2 ^ 256) : decodeRA (encodeRA r) = some r := by
  unfold decodeRA
  rw [if_pos ⟨encodeRA_length r, encodeRA_all_lt r⟩]
  have e4 : (256 : Nat) ^ 4 = 2 ^ 32 := by norm_num
  have e32 : (256 : Nat) ^ 32 = 2 ^ 256 := by norm_num
  have hta : (encodeRA r).take 4 = natToLe 4 r.total_points := by
    unfold encodeRA
    exact List.take_left' (natToLe_length 4 _)
  have hdr : (encodeRA r).drop 4 =
      natToLe 4 r.rewards_claimed ++ natToLe 32 r.mint := by
    unfold encodeRA
    exact List.drop_left' (natToLe_length 4 _)
  have htb : ((encodeRA r).drop 4).take 4 = natToLe 4 r.rewards_claimed := by
    rw [hdr]
    exact List.take_left' (natToLe_length 4 _)
  have h44 : (encodeRA r).drop 8 = ((encodeRA r).drop 4).drop 4 := by
    rw [List.drop_drop]
  have hdm : (encodeRA r).drop 8 = natToLe 32 r.mint := by
    rw [h44, hdr]
    exact List.drop_left' (natToLe_length 4 _)
  rw [hta, htb, hdm, leToNat_natToLe, leToNat_natToLe, leToNat_natToLe,
    e4, e32, Nat.mod_eq_of_lt h1, Nat.mod_eq_of_lt h2, Nat.mod_eq_of_lt h3]

theorem decodeInstr_earnBytes (p : Nat) (hp : p < 2 ^ 32) :
    decodeInstr (earnBytes p) = some (.Earn p) := by
  have hp4 : p < 4294967296 := hp.trans_le (by norm_num)
  simp [decodeInstr, earnBytes, natToLe_length, leToNat_natToLe,
    Nat.mod_eq_of_lt hp4]

theorem decodeInstr_claimBytes (rp amt : Nat) (hrp : rp < 2 ^ 32)
    (hamt : amt < 2 ^ 64) :
    decodeInstr (claimBytes rp amt) = some (.Claim rp amt) := by
  have hl : (natToLe 4 rp ++ natToLe 8 amt).length = 12 := by
    simp [natToLe_length]
  have ht : (natToLe 4 rp ++ natToLe 8 amt).take 4 = natToLe 4 rp :=
    List.take_left' (natToLe_length 4 _)
  have hd : (natToLe 4 rp ++ natToLe 8 amt).drop 4 = natToLe 8 amt :=
    List.drop_left' (natToLe_length 4 _)
  have hrp4 : rp < 4294967296 := hrp.trans_le (by norm_num)
  have hamt8 : amt < 18446744073709551616 := hamt.trans_le (by norm_num)
  simp [decodeInstr, claimBytes, hl, ht, hd, leToNat_natToLe,
    Nat.mod_eq_of_lt hrp4, Nat.mod_eq_of_lt hamt8]

theorem decodeInstr_mintTokenBytes (amt : Nat) (hamt : amt < 2 ^ 64) :
    decodeInstr (mintTokenBytes amt) = some (.MintToken amt) := by
  have hamt8 : amt < 18446744073709551616 := hamt.trans_le (by norm_num)
  simp [decodeInstr, mintTokenBytes, natToLe_length, leToNat_natToLe,
    Nat.mod_eq_of_lt hamt8]

/-! ## Concrete fixtures -/

/-- A concrete host environment for concrete evaluations: the reward PDA is
address 1000 (bump 254), any other derivation yields 2000, rent exemption is
10 lamports per byte, the SPL token program is address 77, and every
cross-program invocation succeeds. -/
def testEnv : Env where
  fpa := fun seeds _ => if seeds = [rewardSeed] then (1000, 254) else (2000, 253)
  minimumBalance := fun n => 10 * n
  splTokenId := 77
  sysTransferOk := true
  createOk := true
  cpiTransferOk := true
  mintCpiOk := true

/-- The executing program's identity in concrete evaluations. -/
def samplePid : Pubkey := 9

def sampleSigner : AccountInfo := ⟨11, true, 5, 0, []⟩

def sampleUserTok : AccountInfo := ⟨12, false, 1, 77, []⟩

def sampleVaultTok : AccountInfo := ⟨13, false, 1, 77, []⟩

def sampleMintAcc : AccountInfo := ⟨14, false, 1, 77, []⟩

def sampleTokenProg : AccountInfo := ⟨77, false, 1, 0, []⟩

def sampleSysProg : AccountInfo := ⟨0, false, 1, 0, []⟩

/-- A reward account at the derived address, owned by the program, rent
funded, holding the encoding of `r`. -/
def sampleReward (r : RewardAccount) : AccountInfo :=
  ⟨1000, false, 400, samplePid, encodeRA r⟩

/-! ## Claim theorems -/

/-- Claim C9: decoding after encoding is the identity — for every reachable
`RewardRecord` value (`u32` fields, 32-byte mint), `decode (encode r) = r`
under the fixed-size little-endian record codec. -/
theorem reward_record_round_trip (r : RewardAccount)
    (h1 : r.total_points < 2 ^ 32) (h2 : r.rewards_claimed < 2 ^ 32)
    (h3 : r.mint < 2 ^ 256) : decodeRA (encodeRA r) = some r :=
  decodeRA_encodeRA r h1 h2 h3

/-- Witness for C9 at the record `⟨3, 4, 5⟩`. -/
theorem reward_record_round_trip_witness :
    decodeRA (encodeRA ⟨3, 4, 5⟩) = some ⟨3, 4, 5⟩ :=
  reward_record_round_trip ⟨3, 4, 5⟩ (by norm_num) (by norm_num) (by norm_num)

/-- Claim C2: with the cross-cutting validation satisfied (signature present,
reward account at the derived address, owned by the program, record
decodable), `Earn { points }` sets `total_points` to the checked 32-bit sum:
when the sum stays below `2^32` it succeeds and writes back exactly the record
with the new `total_points` (no other field changed); when the addition would
wrap it fails with `ArithmeticOverflow`, the persisted bytes are exactly as
before, and no write effect is issued. -/
theorem earn_checked_add (env : Env) (programId : Pubkey)
    (signer rewardAcc userTok vaultTok mintAcc tokenProg sysProg : AccountInfo)
    (points : Nat) (r : RewardAccount)
    (hs : signer.is_signer = true)
    (hk : rewardAcc.key = (env.fpa [rewardSeed] programId).1)
    (ho : rewardAcc.owner = programId)
    (hd : decodeRA rewardAcc.data = some r)
    (hp : points < 2 ^ 32) :
    (r.total_points + points < 2 ^ 32 →
      process env programId signer rewardAcc userTok vaultTok mintAcc
          tokenProg sysProg (earnBytes points) =
        ⟨.ok (),
         { rewardAcc with data := encodeRA ⟨r.total_points + points, r.rewards_claimed, r.mint⟩ },
         [.writeRecord ⟨r.total_points + points, r.rewards_claimed, r.mint⟩]⟩)
    ∧ (2 ^ 32 ≤ r.total_points + points →
      process env programId signer rewardAcc userTok vaultTok mintAcc
          tokenProg sysProg (earnBytes points) =
        ⟨.error .ArithmeticOverflow, rewardAcc, []⟩) := by
  have hlen := decodeRA_length hd
  constructor <;> intro hcase <;> norm_num at hcase
  · simp [process, hs, hk, decodeInstr_earnBytes points hp, processEarn, ho,
      hd, hcase, serializeInto_of_length _ hlen]
  · simp [process, hs, hk, decodeInstr_earnBytes points hp, processEarn, ho,
      hd, Nat.not_lt.mpr hcase]

/-- Witness for C2: earning 5 points on `⟨100, 2, 7⟩` succeeds with
`total_points = 105`; earning 5 points on `⟨2^32 - 3, 2, 7⟩` fails with
`ArithmeticOverflow` and changes nothing. -/
theorem earn_checked_add_witness :
    (process testEnv samplePid sampleSigner (sampleReward ⟨100, 2, 7⟩)
        sampleUserTok sampleVaultTok sampleMintAcc sampleTokenProg
        sampleSysProg (earnBytes 5) =
      ⟨.ok (), { sampleReward ⟨100, 2, 7⟩ with data := encodeRA ⟨105, 2, 7⟩ },
       [.writeRecord ⟨105, 2, 7⟩]⟩)
    ∧ (process testEnv samplePid sampleSigner
        (sampleReward ⟨4294967293, 2, 7⟩) sampleUserTok sampleVaultTok
        sampleMintAcc sampleTokenProg sampleSysProg (earnBytes 5) =
      ⟨.error .ArithmeticOverflow, sampleReward ⟨4294967293, 2, 7⟩, []⟩) := by
  constructor
  · exact (earn_checked_add testEnv samplePid sampleSigner
      (sampleReward ⟨100, 2, 7⟩) sampleUserTok sampleVaultTok sampleMintAcc
      sampleTokenProg sampleSysProg 5 ⟨100, 2, 7⟩ rfl rfl rfl
      (decodeRA_encodeRA _ (by norm_num) (by norm_num) (by norm_num))
      (by norm_num)).1 (by norm_num)
  · exact (earn_checked_add testEnv samplePid sampleSigner
      (sampleReward ⟨4294967293, 2, 7⟩) sampleUserTok sampleVaultTok
      sampleMintAcc sampleTokenProg sampleSysProg 5 ⟨4294967293, 2, 7⟩ rfl rfl
      rfl (decodeRA_encodeRA _ (by norm_num) (by norm_num) (by norm_num))
      (by norm_num)).2 (by norm_num)

/-- Claim C5: `Init` on a funded slot owned by a different program fails with
`InvalidAccountData` (the ownership-conflict error) and mutates nothing: the
returned account equals the input account (same data, size, and balance) and
no effect is issued. -/
theorem init_foreign_owner_rejected (env : Env) (programId : Pubkey)
    (signer rewardAcc userTok vaultTok mintAcc tokenProg sysProg : AccountInfo)
    (hs : signer.is_signer = true)
    (hk : rewardAcc.key = (env.fpa [rewardSeed] programId).1)
    (hl : 0 < rewardAcc.lamports)
    (ho : rewardAcc.owner ≠ programId) :
    process env programId signer rewardAcc userTok vaultTok mintAcc tokenProg
        sysProg initBytes =
      ⟨.error .InvalidAccountData, rewardAcc, []⟩ := by
  simp [process, hs, hk, initBytes, decodeInstr, processInit, hl, ho]

/-- Witness for C5: a funded reward slot owned by program 8 (not the
executing program 9) is rejected untouched. -/
theorem init_foreign_owner_rejected_witness :
    process testEnv samplePid sampleSigner ⟨1000, false, 400, 8, []⟩
        sampleUserTok sampleVaultTok sampleMintAcc sampleTokenProg
        sampleSysProg initBytes =
      ⟨.error .InvalidAccountData, ⟨1000, false, 400, 8, []⟩, []⟩ :=
  init_foreign_owner_rejected testEnv samplePid sampleSigner
    ⟨1000, false, 400, 8, []⟩ sampleUserTok sampleVaultTok sampleMintAcc
    sampleTokenProg sampleSysProg rfl rfl (by decide) (by decide)

/-- Claim C8 (amended): once the cross-cutting validation has passed (the
first account is a signer and the reward account sits at the derived
address), a payload with an unknown discriminant or malformed fields is
rejected with `InvalidInstructionData`, the reward account is returned
untouched, and no effect is issued.  (As literally stated the claim is false:
the decode happens after the signature and derived-address checks, see the
counterexample.) -/
theorem invalid_instruction_rejected (env : Env) (programId : Pubkey)
    (signer rewardAcc userTok vaultTok mintAcc tokenProg sysProg : AccountInfo)
    (idata : List Nat)
    (hs : signer.is_signer = true)
    (hk : rewardAcc.key = (env.fpa [rewardSeed] programId).1)
    (hbad : decodeInstr idata = none) :
    process env programId signer rewardAcc userTok vaultTok mintAcc tokenProg
        sysProg idata =
      ⟨.error .InvalidInstructionData, rewardAcc, []⟩ := by
  simp [process, hs, hk, hbad]

/-- Counterexample for C8 as stated: the payload `[9]` has an unknown
discriminant, yet when the first account has no signature the invocation
terminates with `MissingRequiredSignature`, not the invalid-instruction
error — the payload is decoded only after the signature and derived-address
checks. -/
theorem invalid_instruction_cex :
    decodeInstr [9] = none
    ∧ (process testEnv samplePid ⟨11, false, 5, 0, []⟩
        (sampleReward ⟨0, 0, 7⟩) sampleUserTok sampleVaultTok sampleMintAcc
        sampleTokenProg sampleSysProg [9]).result =
      .error .MissingRequiredSignature
    ∧ ProgramError.MissingRequiredSignature ≠
      ProgramError.InvalidInstructionData := by
  exact ⟨rfl, rfl, by decide⟩

/-- Witness for C8 (amended) at payload `[9]` with validation satisfied. -/
theorem invalid_instruction_rejected_witness :
    process testEnv samplePid sampleSigner (sampleReward ⟨0, 0, 7⟩)
        sampleUserTok sampleVaultTok sampleMintAcc sampleTokenProg
        sampleSysProg [9] =
      ⟨.error .InvalidInstructionData, sampleReward ⟨0, 0, 7⟩, []⟩ :=
  invalid_instruction_rejected testEnv samplePid sampleSigner
    (sampleReward ⟨0, 0, 7⟩) sampleUserTok sampleVaultTok sampleMintAcc
    sampleTokenProg sampleSysProg [9] rfl rfl rfl

/-- Claim C10: a `MintToken { amount }` invocation never modifies the reward
account — whatever the environment, program id, accounts, amount, and whether
any check or the mint CPI fails, the reward account (data, owner, balance)
is returned exactly as it was. -/
theorem mint_token_preserves_record (env : Env) (programId : Pubkey)
    (signer rewardAcc userTok vaultTok mintAcc tokenProg sysProg : AccountInfo)
    (amount : Nat) :
    (process env programId signer rewardAcc userTok vaultTok mintAcc tokenProg
        sysProg (mintTokenBytes amount)).reward = rewardAcc := by
  have hdec : decodeInstr (mintTokenBytes amount) =
      some (.MintToken (leToNat (natToLe 8 amount))) := by
    simp [decodeInstr, mintTokenBytes, natToLe_length]
  have hmt : ∀ amt,
      (processMintToken env programId signer rewardAcc vaultTok mintAcc
        tokenProg amt).reward = rewardAcc := by
    intro amt
    simp only [processMintToken]
    split_ifs <;> rfl
  unfold process
  split
  · rfl
  · split
    · rfl
    · rw [hdec]
      exact hmt _

/-- Length of the buffer after `realloc(40, true)`: the old bytes truncated
to 40, zero padded up to 40. -/
theorem realloc_length (d : List Nat) :
    (d.take 40 ++ List.replicate (40 - d.length) 0).length = 40 := by
  simp only [List.length_append, List.length_take, List.length_replicate]
  omega

/-- Claim C1 (amended): with the cross-cutting validation satisfied and the
downstream token transfer able to succeed (correct token program account, CPI
succeeds), redeem succeeds iff `total_points ≥ required_points`: on success
`total_points` decreases by exactly `required_points` and `rewards_claimed`
increases by exactly 1 modulo `2^32` (so by exactly 1 whenever it is below
`2^32 - 1`); with insufficient points it fails with `InsufficientFunds` and
the record is returned bit-for-bit unchanged.  (As literally stated the claim
is false: a failed external transfer makes redeem fail with a different error
after the debited record was already persisted, see the counterexample.) -/
theorem claim_redeem (env : Env) (programId : Pubkey)
    (signer rewardAcc userTok vaultTok mintAcc tokenProg sysProg : AccountInfo)
    (requiredPoints amount : Nat) (r : RewardAccount)
    (hs : signer.is_signer = true)
    (hk : rewardAcc.key = (env.fpa [rewardSeed] programId).1)
    (ho : rewardAcc.owner = programId)
    (hd : decodeRA rewardAcc.data = some r)
    (hrp : requiredPoints < 2 ^ 32) (hamt : amount < 2 ^ 64)
    (htk : tokenProg.key = env.splTokenId)
    (hcpi : env.cpiTransferOk = true) :
    (requiredPoints ≤ r.total_points →
      process env programId signer rewardAcc userTok vaultTok mintAcc
          tokenProg sysProg (claimBytes requiredPoints amount) =
        ⟨.ok (),
         { rewardAcc with data := encodeRA ⟨r.total_points - requiredPoints, (r.rewards_claimed + 1) % 2 ^ 32, r.mint⟩ },
         [.writeRecord ⟨r.total_points - requiredPoints, (r.rewards_claimed + 1) % 2 ^ 32, r.mint⟩,
          .splTransfer vaultTok.key userTok.key signer.key amount]⟩)
    ∧ (r.total_points < requiredPoints →
      process env programId signer rewardAcc userTok vaultTok mintAcc
          tokenProg sysProg (claimBytes requiredPoints amount) =
        ⟨.error .InsufficientFunds, rewardAcc, []⟩) := by
  have hlen := decodeRA_length hd
  constructor <;> intro hcase
  · simp [process, hs, hk, decodeInstr_claimBytes _ _ hrp hamt, processClaim,
      ho, hd, Nat.not_lt.mpr hcase, serializeInto_of_length _ hlen, htk, hcpi]
  · simp [process, hs, hk, decodeInstr_claimBytes _ _ hrp hamt, processClaim,
      ho, hd, hcase]

/-- Counterexample for C1 as stated: on the record `⟨100, 0, 7⟩` the claim
`Claim { required_points := 10, amount := 3 }` has sufficient points, yet when
the external transfer fails the operation does not succeed, its error is not
the insufficient-points error, and the persisted record has changed (the
points were debited): redeem's outcome is not a function of
`total_points ≥ required_points` alone. -/
theorem claim_redeem_cex :
    (10 : Nat) ≤ 100
    ∧ (process { testEnv with cpiTransferOk := false } samplePid sampleSigner
        (sampleReward ⟨100, 0, 7⟩) sampleUserTok sampleVaultTok sampleMintAcc
        sampleTokenProg sampleSysProg (claimBytes 10 3)).result =
      .error .ExternalCallFailed
    ∧ ProgramError.ExternalCallFailed ≠ ProgramError.InsufficientFunds
    ∧ decodeRA (process { testEnv with cpiTransferOk := false } samplePid
        sampleSigner (sampleReward ⟨100, 0, 7⟩) sampleUserTok sampleVaultTok
        sampleMintAcc sampleTokenProg sampleSysProg
        (claimBytes 10 3)).reward.data = some ⟨90, 1, 7⟩ := by
  exact ⟨by norm_num, rfl, by decide, rfl⟩

/-- Witness for C1 (amended): redeeming 10 of 100 points succeeds with record
`⟨90, 1, 7⟩` and a transfer of 3 tokens; redeeming 10 of 5 points fails with
`InsufficientFunds` and no change. -/
theorem claim_redeem_witness :
    (process testEnv samplePid sampleSigner (sampleReward ⟨100, 0, 7⟩)
        sampleUserTok sampleVaultTok sampleMintAcc sampleTokenProg
        sampleSysProg (claimBytes 10 3) =
      ⟨.ok (), { sampleReward ⟨100, 0, 7⟩ with data := encodeRA ⟨90, 1, 7⟩ },
       [.writeRecord ⟨90, 1, 7⟩, .splTransfer 13 12 11 3]⟩)
    ∧ (process testEnv samplePid sampleSigner (sampleReward ⟨5, 0, 7⟩)
        sampleUserTok sampleVaultTok sampleMintAcc sampleTokenProg
        sampleSysProg (claimBytes 10 3) =
      ⟨.error .InsufficientFunds, sampleReward ⟨5, 0, 7⟩, []⟩) := by
  constructor
  · exact (claim_redeem testEnv samplePid sampleSigner
      (sampleReward ⟨100, 0, 7⟩) sampleUserTok sampleVaultTok sampleMintAcc
      sampleTokenProg sampleSysProg 10 3 ⟨100, 0, 7⟩ rfl rfl rfl
      (decodeRA_encodeRA _ (by norm_num) (by norm_num) (by norm_num))
      (by norm_num) (by norm_num) rfl rfl).1 (by norm_num)
  · exact (claim_redeem testEnv samplePid sampleSigner
      (sampleReward ⟨5, 0, 7⟩) sampleUserTok sampleVaultTok sampleMintAcc
      sampleTokenProg sampleSysProg 10 3 ⟨5, 0, 7⟩ rfl rfl rfl
      (decodeRA_encodeRA _ (by norm_num) (by norm_num) (by norm_num))
      (by norm_num) (by norm_num) rfl rfl).2 (by norm_num)

/-- Claim C3 (code bug): the increment of `rewards_claimed` in the `Claim`
branch is the unchecked `rewards_claimed += 1`, not a checked addition.  At
`rewards_claimed = 2^32 - 1 = 4294967295` with sufficient points the
operation succeeds instead of failing with an overflow error, and the record
persisted wraps `rewards_claimed` to 0 (together with the debit), violating
the spec's monotonicity of `rewards_claimed`. -/
theorem claim_increment_wraps :
    (process testEnv samplePid sampleSigner
        (sampleReward ⟨1, 4294967295, 7⟩) sampleUserTok sampleVaultTok
        sampleMintAcc sampleTokenProg sampleSysProg
        (claimBytes 1 5)).result = .ok ()
    ∧ decodeRA (process testEnv samplePid sampleSigner
        (sampleReward ⟨1, 4294967295, 7⟩) sampleUserTok sampleVaultTok
        sampleMintAcc sampleTokenProg sampleSysProg
        (claimBytes 1 5)).reward.data = some ⟨0, 0, 7⟩ := by
  exact ⟨rfl, rfl⟩

/-- Claim C4: Init is idempotent and repairs.  On a funded, program-owned
slot: if the data decodes to a valid record, Init returns success and
performs no mutation at all (the account and the effect trace are unchanged);
if the data fails to decode (and the host's top-up transfer is available),
Init succeeds, the slot ends up holding exactly the freshly zeroed record
(`total_points = 0`, `rewards_claimed = 0`) and its owning program is
unchanged. -/
theorem init_idempotent_and_repair (env : Env) (programId : Pubkey)
    (signer rewardAcc userTok vaultTok mintAcc tokenProg sysProg : AccountInfo)
    (hs : signer.is_signer = true)
    (hk : rewardAcc.key = (env.fpa [rewardSeed] programId).1)
    (hl : 0 < rewardAcc.lamports)
    (ho : rewardAcc.owner = programId) :
    ((decodeRA rewardAcc.data).isSome = true →
      process env programId signer rewardAcc userTok vaultTok mintAcc
          tokenProg sysProg initBytes = ⟨.ok (), rewardAcc, []⟩)
    ∧ (decodeRA rewardAcc.data = none → env.sysTransferOk = true →
      (process env programId signer rewardAcc userTok vaultTok mintAcc
          tokenProg sysProg initBytes).result = .ok ()
      ∧ (process env programId signer rewardAcc userTok vaultTok mintAcc
          tokenProg sysProg initBytes).reward.data =
        encodeRA (zeroRecord mintAcc.key)
      ∧ (process env programId signer rewardAcc userTok vaultTok mintAcc
          tokenProg sysProg initBytes).reward.owner = rewardAcc.owner) := by
  constructor
  · intro hv
    simp [process, hs, hk, initBytes, decodeInstr, processInit, hl, ho, hv]
  · intro hnone hsys
    by_cases hr : rewardAcc.lamports < env.minimumBalance 40
    · simp [process, hs, hk, initBytes, decodeInstr, processInit, hl, ho,
        hnone, hsys, hr, serializeInto_of_length _ (realloc_length _)]
    · simp [process, hs, hk, initBytes, decodeInstr, processInit, hl, ho,
        hnone, hsys, hr, serializeInto_of_length _ (realloc_length _)]

/-- Witness for C4: a valid record `⟨3, 4, 7⟩` is left untouched by a second
Init; a corrupted buffer `[1, 2, 3]` in a program-owned slot is repaired to
the zeroed record with ownership preserved. -/
theorem init_idempotent_and_repair_witness :
    (process testEnv samplePid sampleSigner (sampleReward ⟨3, 4, 7⟩)
        sampleUserTok sampleVaultTok sampleMintAcc sampleTokenProg
        sampleSysProg initBytes = ⟨.ok (), sampleReward ⟨3, 4, 7⟩, []⟩)
    ∧ ((process testEnv samplePid sampleSigner ⟨1000, false, 400, samplePid, [1, 2, 3]⟩
        sampleUserTok sampleVaultTok sampleMintAcc sampleTokenProg
        sampleSysProg initBytes).result = .ok ()
      ∧ (process testEnv samplePid sampleSigner ⟨1000, false, 400, samplePid, [1, 2, 3]⟩
        sampleUserTok sampleVaultTok sampleMintAcc sampleTokenProg
        sampleSysProg initBytes).reward.data = encodeRA (zeroRecord 14)
      ∧ (process testEnv samplePid sampleSigner ⟨1000, false, 400, samplePid, [1, 2, 3]⟩
        sampleUserTok sampleVaultTok sampleMintAcc sampleTokenProg
        sampleSysProg initBytes).reward.owner = samplePid) := by
  constructor
  · exact (init_idempotent_and_repair testEnv samplePid sampleSigner
      (sampleReward ⟨3, 4, 7⟩) sampleUserTok sampleVaultTok sampleMintAcc
      sampleTokenProg sampleSysProg rfl rfl (by decide) rfl).1 (by decide)
  · exact (init_idempotent_and_repair testEnv samplePid sampleSigner
      ⟨1000, false, 400, samplePid, [1, 2, 3]⟩ sampleUserTok sampleVaultTok
      sampleMintAcc sampleTokenProg sampleSysProg rfl rfl (by decide)
      rfl).2 (by decide) rfl

/-- Claim C6 (amended): the cross-cutting validation order is: (a) the first
account must carry a signature, else `MissingRequiredSignature`; (b) the
reward account's address must equal the PDA derived for seed `b"reward"`,
else `InvalidAccountData`; (c) for the record-touching operations (`Earn`,
`Claim`, `MintToken`, i.e. every decoded instruction except `Init`) the
reward account's owner must be the executing program, else
`IncorrectProgramId` — the owner check happens inside the dispatched branch,
after instruction decoding, not before the derived-address check.  (As
literally stated — owner before derived address — the claim is false, see the
counterexample.) -/
theorem validation_order (env : Env) (programId : Pubkey)
    (signer rewardAcc userTok vaultTok mintAcc tokenProg sysProg : AccountInfo)
    (idata : List Nat) :
    (signer.is_signer = false →
      process env programId signer rewardAcc userTok vaultTok mintAcc
          tokenProg sysProg idata =
        ⟨.error .MissingRequiredSignature, rewardAcc, []⟩)
    ∧ (signer.is_signer = true →
       rewardAcc.key ≠ (env.fpa [rewardSeed] programId).1 →
      process env programId signer rewardAcc userTok vaultTok mintAcc
          tokenProg sysProg idata =
        ⟨.error .InvalidAccountData, rewardAcc, []⟩)
    ∧ (∀ instr, signer.is_signer = true →
       rewardAcc.key = (env.fpa [rewardSeed] programId).1 →
       decodeInstr idata = some instr → instr ≠ .Init →
       rewardAcc.owner ≠ programId →
      (process env programId signer rewardAcc userTok vaultTok mintAcc
          tokenProg sysProg idata).result = .error .IncorrectProgramId) := by
  refine ⟨fun h1 => by simp [process, h1],
    fun h1 h2 => by simp [process, h1, h2],
    fun instr h1 h2 h3 h4 h5 => ?_⟩
  cases instr with
  | Init => exact absurd rfl h4
  | Earn p => simp [process, h1, h2, h3, processEarn, h5]
  | Claim rp amt => simp [process, h1, h2, h3, processClaim, h5]
  | MintToken amt => simp [process, h1, h2, h3, processMintToken, h5]

/-- Counterexample for C6 as stated: with a valid signature, a reward account
whose owner is wrong (program 8 instead of 9) *and* whose address differs
from the derived PDA fails with the derived-address error
`InvalidAccountData`, not with the wrong-owner error the claimed order
(signature, then owner, then derived address) would require. -/
theorem validation_order_cex :
    (process testEnv samplePid sampleSigner ⟨555, false, 400, 8, []⟩
        sampleUserTok sampleVaultTok sampleMintAcc sampleTokenProg
        sampleSysProg (earnBytes 1)).result = .error .InvalidAccountData
    ∧ ProgramError.InvalidAccountData ≠ ProgramError.IncorrectProgramId := by
  exact ⟨rfl, by decide⟩

/-- Witness for C6 (amended) at the three concrete failure states. -/
theorem validation_order_witness :
    (process testEnv samplePid ⟨11, false, 5, 0, []⟩ (sampleReward ⟨0, 0, 7⟩)
        sampleUserTok sampleVaultTok sampleMintAcc sampleTokenProg
        sampleSysProg (earnBytes 1) =
      ⟨.error .MissingRequiredSignature, sampleReward ⟨0, 0, 7⟩, []⟩)
    ∧ (process testEnv samplePid sampleSigner ⟨555, false, 400, samplePid, []⟩
        sampleUserTok sampleVaultTok sampleMintAcc sampleTokenProg
        sampleSysProg (earnBytes 1) =
      ⟨.error .InvalidAccountData, ⟨555, false, 400, samplePid, []⟩, []⟩)
    ∧ (process testEnv samplePid sampleSigner ⟨1000, false, 400, 8, []⟩
        sampleUserTok sampleVaultTok sampleMintAcc sampleTokenProg
        sampleSysProg (earnBytes 1)).result = .error .IncorrectProgramId := by
  refine ⟨?_, ?_, ?_⟩
  · exact (validation_order testEnv samplePid ⟨11, false, 5, 0, []⟩
      (sampleReward ⟨0, 0, 7⟩) sampleUserTok sampleVaultTok sampleMintAcc
      sampleTokenProg sampleSysProg (earnBytes 1)).1 rfl
  · exact (validation_order testEnv samplePid sampleSigner
      ⟨555, false, 400, samplePid, []⟩ sampleUserTok sampleVaultTok
      sampleMintAcc sampleTokenProg sampleSysProg (earnBytes 1)).2.1 rfl
      (by decide)
  · exact (validation_order testEnv samplePid sampleSigner
      ⟨1000, false, 400, 8, []⟩ sampleUserTok sampleVaultTok sampleMintAcc
      sampleTokenProg sampleSysProg (earnBytes 1)).2.2 (.Earn 1) rfl rfl
      (by decide) (by decide) (by decide)

/-- Claim C7: in a redeem with sufficient points, the updated (debited,
incremented) record is persisted strictly before the cross-program token
transfer is issued: the write-record effect is the head of the effect trace;
consequently, when the external transfer fails (failing CPI or wrong token
program account), the invocation returns an error but the persisted reward
data already holds the debited record — the points are spent. -/
theorem claim_persist_before_transfer (env : Env) (programId : Pubkey)
    (signer rewardAcc userTok vaultTok mintAcc tokenProg sysProg : AccountInfo)
    (requiredPoints amount : Nat) (r : RewardAccount)
    (hs : signer.is_signer = true)
    (hk : rewardAcc.key = (env.fpa [rewardSeed] programId).1)
    (ho : rewardAcc.owner = programId)
    (hd : decodeRA rewardAcc.data = some r)
    (hrp : requiredPoints < 2 ^ 32) (hamt : amount < 2 ^ 64)
    (hge : requiredPoints ≤ r.total_points) :
    (process env programId signer rewardAcc userTok vaultTok mintAcc tokenProg
        sysProg (claimBytes requiredPoints amount)).trace.head? =
      some (.writeRecord ⟨r.total_points - requiredPoints, (r.rewards_claimed + 1) % 2 ^ 32, r.mint⟩)
    ∧ (env.cpiTransferOk = false ∨ tokenProg.key ≠ env.splTokenId →
      (process env programId signer rewardAcc userTok vaultTok mintAcc
          tokenProg sysProg (claimBytes requiredPoints amount)).result ≠ .ok ()
      ∧ (process env programId signer rewardAcc userTok vaultTok mintAcc
          tokenProg sysProg (claimBytes requiredPoints amount)).reward.data =
        encodeRA ⟨r.total_points - requiredPoints, (r.rewards_claimed + 1) % 2 ^ 32, r.mint⟩) := by
  have hlen := decodeRA_length hd
  have hnl : ¬ r.total_points < requiredPoints := Nat.not_lt.mpr hge
  by_cases htk : tokenProg.key = env.splTokenId
  · by_cases hcpi : env.cpiTransferOk = true
    · refine ⟨?_, ?_⟩
      · simp [process, hs, hk, decodeInstr_claimBytes _ _ hrp hamt,
          processClaim, ho, hd, hnl, serializeInto_of_length _ hlen, htk, hcpi]
      · rintro (hbad | hbad)
        · exact absurd hcpi (by simp [hbad])
        · exact absurd htk hbad
    · constructor
      · simp [process, hs, hk, decodeInstr_claimBytes _ _ hrp hamt,
          processClaim, ho, hd, hnl, serializeInto_of_length _ hlen, htk, hcpi]
      · intro _
        constructor <;>
          simp [process, hs, hk, decodeInstr_claimBytes _ _ hrp hamt,
            processClaim, ho, hd, hnl, serializeInto_of_length _ hlen, htk,
            hcpi]
  · constructor
    · simp [process, hs, hk, decodeInstr_claimBytes _ _ hrp hamt,
        processClaim, ho, hd, hnl, serializeInto_of_length _ hlen, htk]
    · intro _
      constructor <;>
        simp [process, hs, hk, decodeInstr_claimBytes _ _ hrp hamt,
          processClaim, ho, hd, hnl, serializeInto_of_length _ hlen, htk]

/-- Witness for C7: with a failing transfer CPI, redeeming 10 of 100 points
leaves the head of the trace at the record write of `⟨90, 1, 7⟩`, the result
is not success, and the persisted data holds the debited record. -/
theorem claim_persist_before_transfer_witness :
    (process { testEnv with cpiTransferOk := false } samplePid sampleSigner
        (sampleReward ⟨100, 0, 7⟩) sampleUserTok sampleVaultTok sampleMintAcc
        sampleTokenProg sampleSysProg (claimBytes 10 3)).trace.head? =
      some (.writeRecord ⟨90, 1, 7⟩)
    ∧ (process { testEnv with cpiTransferOk := false } samplePid sampleSigner
        (sampleReward ⟨100, 0, 7⟩) sampleUserTok sampleVaultTok sampleMintAcc
        sampleTokenProg sampleSysProg (claimBytes 10 3)).result ≠ .ok ()
    ∧ (process { testEnv with cpiTransferOk := false } samplePid sampleSigner
        (sampleReward ⟨100, 0, 7⟩) sampleUserTok sampleVaultTok sampleMintAcc
        sampleTokenProg sampleSysProg (claimBytes 10 3)).reward.data =
      encodeRA ⟨90, 1, 7⟩ := by
  have h := claim_persist_before_transfer { testEnv with cpiTransferOk := false }
    samplePid sampleSigner (sampleReward ⟨100, 0, 7⟩) sampleUserTok
    sampleVaultTok sampleMintAcc sampleTokenProg sampleSysProg 10 3
    ⟨100, 0, 7⟩ rfl rfl rfl
    (decodeRA_encodeRA _ (by norm_num) (by norm_num) (by norm_num))
    (by norm_num) (by norm_num) (by norm_num)
  exact ⟨h.1, (h.2 (Or.inl rfl)).1, (h.2 (Or.inl rfl)).2⟩

end RewardSystem
